import Mathlib

/-!
# Verification of the drone patrol-distance planner

Shallow embedding of `Server.CalculateDroneDistance` (Go) and the
definitions it depends on, together with proofs of the specification
claims about the planner.

The Go function builds a `Width × Length` height map (default clearance 1,
a tree at `(X, Y)` raises cell `(Y-1, X-1)` to `Height + 1`), walks the
grid in serpentine row order (even-indexed rows left→right, odd-indexed
rows right→left), accumulates horizontal distance (`ScaleFactor` per cell
after the first) and vertical distance (`|currentHeight - previousHeight|`
per cell, plus the final cell's own height as a landing term), and, when a
`maxDistance` budget is supplied, returns early as soon as
`totalHorizontalDistance + totalVerticalDistance + currentHeight` exceeds
the budget — returning the output struct accumulated so far (whose
distance totals are still at their zero values, only the last-achievable
coordinates having been written).

Go `int` is modelled as `Int` (the values reachable under the stated
preconditions are far from 64-bit overflow), slices as `List`, the
optional `*int` budget as `Option Int`, and the `(output, error)` pair as
`Except String`.
-/

namespace DronePatrol

/-- Go struct `repository.Tree` (fields `X, Y, Height int`). -/
structure Tree where
  X : Int
  Y : Int
  Height : Int
deriving DecidableEq, Repr

/-- Go struct `repository.Estate` (fields `Length, Width int`). -/
structure Estate where
  Length : Int
  Width : Int
deriving DecidableEq, Repr

/-- Go struct `repository.CalculateDroneDistanceInput`. -/
structure CalculateDroneDistanceInput where
  Trees : List Tree
  Estate : Estate
deriving DecidableEq, Repr

/-- Go struct `repository.CalculateDroneDistanceOutput`. -/
structure CalculateDroneDistanceOutput where
  TotalDistance : Int
  TotalVerticalDistance : Int
  TotalHorizontalDistance : Int
  LastAchievableXCoordinate : Int
  LastAchievableYCoordinate : Int
deriving DecidableEq, Repr

/-- Read `g[i][j]` of the two-dimensional slice; out-of-range reads
default (the Go code never performs them under the preconditions, see the
checked variant below). -/
def getCell (g : List (List Int)) (i j : Nat) : Int :=
  (g.getD i []).getD j 0

/-- The height map: `make([][]int, Width)` rows of `make([]int, Length)`
filled with 1, then `plantationGridArray[t.Y-1][t.X-1] = t.Height + 1`
for each tree in order (later trees overwrite earlier ones). -/
def buildGrid (inp : CalculateDroneDistanceInput) : List (List Int) :=
  let base := List.replicate inp.Estate.Width.toNat
    (List.replicate inp.Estate.Length.toNat 1)
  inp.Trees.foldl
    (fun g t =>
      g.set (t.Y - 1).toNat
        ((g.getD (t.Y - 1).toNat []).set (t.X - 1).toNat (t.Height + 1)))
    base

/-- The serpentine traversal order of the two nested Go loops:
outer loop `i = 0 .. width-1`; inner loop `j = 0 .. length-1` when
`i % 2 == 0`, else `j = length-1 .. 0`.  Cells are `(row i, column j)`. -/
def serpCells (width length : Nat) : List (Nat × Nat) :=
  (List.range width).flatMap fun i =>
    if i % 2 = 0 then (List.range length).map (fun j => (i, j))
    else ((List.range length).reverse).map (fun j => (i, j))

/-- The Go budget test `maxDistance != nil && *maxDistance < x`. -/
def trips (maxDistance : Option Int) (x : Int) : Bool :=
  match maxDistance with
  | none => false
  | some m => decide (m < x)

/-- Write the 1-based coordinates of cell `c` into the output struct
(`LastAchievableXCoordinate = j + 1`, `LastAchievableYCoordinate = i + 1`). -/
def setLast (o : CalculateDroneDistanceOutput) (c : Nat × Nat) :
    CalculateDroneDistanceOutput :=
  { o with
    LastAchievableXCoordinate := (c.2 : Int) + 1
    LastAchievableYCoordinate := (c.1 : Int) + 1 }

/-- The mutable locals of the Go loop: the two running totals, the
`previousHeight` variable, and the output struct under construction. -/
structure LoopSt where
  totalHorizontalDistance : Int
  totalVerticalDistance : Int
  previousHeight : Int
  out : CalculateDroneDistanceOutput
deriving DecidableEq, Repr

/-- One iteration of the Go loop body at cell `c = (i, j)`, split on row
parity exactly as the source is.  `.inr o` models the early
`return calculateDroneDistanceOutput, nil` inside the loop; `.inl st`
carries the updated locals to the next iteration. -/
def stepCell (g : List (List Int)) (width length : Nat) (scaleFactor : Int)
    (maxDistance : Option Int) (st : LoopSt) (c : Nat × Nat) :
    LoopSt ⊕ CalculateDroneDistanceOutput :=
  let i := c.1
  let j := c.2
  if i % 2 = 0 then
    -- even row: scanned west to east
    let currentHeight := getCell g i j
    let previousHeight :=
      if j = 0 then
        if i = 0 then st.previousHeight  -- very first grid: not reassigned
        else getCell g (i - 1) j
      else getCell g i (j - 1)
    let increment := |currentHeight - previousHeight|
    let totalV := st.totalVerticalDistance + increment
    let totalH :=
      if ¬(i = 0 ∧ j = 0) then st.totalHorizontalDistance + scaleFactor
      else st.totalHorizontalDistance
    if trips maxDistance (totalH + totalV + currentHeight) then .inr st.out
    else
      let out := setLast st.out c
      let totalV :=
        if i = width - 1 ∧ j = length - 1 then totalV + getCell g i j
        else totalV
      .inl ⟨totalH, totalV, previousHeight, out⟩
  else
    -- odd row: scanned east to west
    let currentHeight := getCell g i j
    let previousHeight :=
      if j = length - 1 then getCell g (i - 1) j  -- row boundary: previous row
      else getCell g i (j + 1)
    let increment := |currentHeight - previousHeight|
    let totalV := st.totalVerticalDistance + increment
    let totalH := st.totalHorizontalDistance + scaleFactor
    if trips maxDistance (totalH + totalV + currentHeight) then .inr st.out
    else
      let out := setLast st.out c
      let totalV :=
        if i = width - 1 ∧ j = 0 then totalV + getCell g i j
        else totalV
      .inl ⟨totalH, totalV, previousHeight, out⟩

/-- Run the loop body over the remaining cells; on normal completion the
three distance totals are written into the output struct (the three
assignments after the loops in the source). -/
def runCells (g : List (List Int)) (width length : Nat) (scaleFactor : Int)
    (maxDistance : Option Int) : List (Nat × Nat) → LoopSt →
    CalculateDroneDistanceOutput
  | [], st =>
    { st.out with
      TotalDistance := st.totalVerticalDistance + st.totalHorizontalDistance
      TotalHorizontalDistance := st.totalHorizontalDistance
      TotalVerticalDistance := st.totalVerticalDistance }
  | c :: cs, st =>
    match stepCell g width length scaleFactor maxDistance st c with
    | .inl st' => runCells g width length scaleFactor maxDistance cs st'
    | .inr o => o

/-- The body of `CalculateDroneDistance` after the nil-input check:
build the grid and traverse it.  All locals start at their Go zero
values. -/
def calculateOutput (scaleFactor : Int) (inp : CalculateDroneDistanceInput)
    (maxDistance : Option Int) : CalculateDroneDistanceOutput :=
  let width := inp.Estate.Width.toNat
  let length := inp.Estate.Length.toNat
  runCells (buildGrid inp) width length scaleFactor maxDistance
    (serpCells width length) ⟨0, 0, 0, ⟨0, 0, 0, 0, 0⟩⟩

/-- `Server.CalculateDroneDistance`: nil input yields the error, otherwise
the traversal result is returned with a nil error. -/
def CalculateDroneDistance (scaleFactor : Int)
    (input : Option CalculateDroneDistanceInput) (maxDistance : Option Int) :
    Except String CalculateDroneDistanceOutput :=
  match input with
  | none =>
    .error "err CalculateDroneDistance: invalid input -- nothing to calculate drone distance"
  | some inp => .ok (calculateOutput scaleFactor inp maxDistance)

/-! ## Closed-form description of the traversal

The loop body at a cell `(i, j)` reads the grid at the cell itself and at
one *previous* cell selected by the branch structure of the source; the
following pure functions (of the cell alone) reproduce those reads, so the
whole run can be described by a list of per-cell cost values. -/

/-- The height of cell `c` in the grid. -/
def cellAt (g : List (List Int)) (c : Nat × Nat) : Int :=
  getCell g c.1 c.2

/-- The `previousHeight` value the loop body uses at cell `c`, given that
the `previousHeight` variable currently holds `p` (only read, and left
unchanged, at the very first cell `(0,0)`): same row previous column on
even rows, same row next column on odd rows, previous row same column at
each row boundary. -/
def prevHeightUsed (g : List (List Int)) (length : Nat) (p : Int)
    (c : Nat × Nat) : Int :=
  if c.1 % 2 = 0 then
    if c.2 = 0 then
      if c.1 = 0 then p else getCell g (c.1 - 1) c.2
    else getCell g c.1 (c.2 - 1)
  else
    if c.2 = length - 1 then getCell g (c.1 - 1) c.2
    else getCell g c.1 (c.2 + 1)

/-- The vertical increment charged at cell `c` (the `previousHeight`
variable holds `0` when the very first cell is processed). -/
def incOf (g : List (List Int)) (length : Nat) (c : Nat × Nat) : Int :=
  |cellAt g c - prevHeightUsed g length 0 c|

/-- The landing term added after cell `c` is finalized: the cell's own
height at the final corner of the traversal, `0` elsewhere. -/
def landOf (g : List (List Int)) (width length : Nat) (c : Nat × Nat) : Int :=
  if c.1 = width - 1 ∧ (if c.1 % 2 = 0 then c.2 = length - 1 else c.2 = 0) then
    cellAt g c
  else 0

/-- The horizontal increment charged at cell `c`: `scaleFactor` except at
the very first cell. -/
def hstepOf (scaleFactor : Int) (c : Nat × Nat) : Int :=
  if c.1 = 0 ∧ c.2 = 0 then 0 else scaleFactor

/-- The value the budget is compared against at each cell, in traversal
order: the running totals *after* this cell's increments, plus the cell's
own height, starting from accumulators `h` and `v`. -/
def checkVals (g : List (List Int)) (width length : Nat) (scaleFactor : Int) :
    List (Nat × Nat) → Int → Int → List Int
  | [], _, _ => []
  | c :: cs, h, v =>
    let h' := h + hstepOf scaleFactor c
    let v' := v + incOf g length c
    (h' + v' + cellAt g c) ::
      checkVals g width length scaleFactor cs h' (v' + landOf g width length c)

/-- Final vertical total after traversing `cs` from accumulator `v`. -/
def vFin (g : List (List Int)) (width length : Nat) :
    List (Nat × Nat) → Int → Int
  | [], v => v
  | c :: cs, v =>
    vFin g width length cs (v + incOf g length c + landOf g width length c)

/-- Final horizontal total after traversing `cs` from accumulator `h`. -/
def hFin (scaleFactor : Int) : List (Nat × Nat) → Int → Int
  | [], h => h
  | c :: cs, h => hFin scaleFactor cs (h + hstepOf scaleFactor c)

/-- Index of the first element satisfying `p`, if any. -/
def firstIdx (p : Int → Bool) : List Int → Option Nat
  | [] => none
  | x :: xs => if p x then some 0 else (firstIdx p xs).map (· + 1)

/-- The output produced when the traversal of `cs` completes without the
budget ever tripping. -/
def completeOut (g : List (List Int)) (width length : Nat)
    (scaleFactor : Int) (cs : List (Nat × Nat)) (st : LoopSt) :
    CalculateDroneDistanceOutput :=
  { (match cs.getLast? with
     | some c => setLast st.out c
     | none => st.out) with
    TotalDistance :=
      vFin g width length cs st.totalVerticalDistance +
        hFin scaleFactor cs st.totalHorizontalDistance
    TotalHorizontalDistance := hFin scaleFactor cs st.totalHorizontalDistance
    TotalVerticalDistance := vFin g width length cs st.totalVerticalDistance }

/-- Closed-form description of `runCells`: the run stops at the first cell
whose check value trips the budget (returning the output accumulated
through the previous cell, totals untouched), and otherwise completes. -/
def runSpec (g : List (List Int)) (width length : Nat) (scaleFactor : Int)
    (maxDistance : Option Int) (cs : List (Nat × Nat)) (st : LoopSt) :
    CalculateDroneDistanceOutput :=
  match firstIdx (trips maxDistance)
      (checkVals g width length scaleFactor cs
        st.totalHorizontalDistance st.totalVerticalDistance) with
  | some 0 => st.out
  | some (k + 1) => setLast st.out (cs.getD k (0, 0))
  | none => completeOut g width length scaleFactor cs st

/-- The stop index of a full planning call: position in the serpentine
order of the first cell whose budget check trips, if any. -/
def stopIndex (scaleFactor : Int) (inp : CalculateDroneDistanceInput)
    (maxDistance : Option Int) : Option Nat :=
  let width := inp.Estate.Width.toNat
  let length := inp.Estate.Length.toNat
  firstIdx (trips maxDistance)
    (checkVals (buildGrid inp) width length scaleFactor
      (serpCells width length) 0 0)

/-- The serpentine cell list of a planning call. -/
def droneCells (inp : CalculateDroneDistanceInput) : List (Nat × Nat) :=
  serpCells inp.Estate.Width.toNat inp.Estate.Length.toNat

/-- The validation-layer precondition: every tree sits on the estate,
`1 ≤ X ≤ Length` and `1 ≤ Y ≤ Width`. -/
def treesInBounds (inp : CalculateDroneDistanceInput) : Prop :=
  ∀ t ∈ inp.Trees,
    1 ≤ t.X ∧ t.X ≤ inp.Estate.Length ∧ 1 ≤ t.Y ∧ t.Y ≤ inp.Estate.Width

instance (inp : CalculateDroneDistanceInput) : Decidable (treesInBounds inp) :=
  inferInstanceAs (Decidable (∀ t ∈ inp.Trees, _ ∧ _ ∧ _ ∧ _))

/-- The data-model precondition that tree heights are at least 1. -/
def treeHeightsPos (inp : CalculateDroneDistanceInput) : Prop :=
  ∀ t ∈ inp.Trees, 1 ≤ t.Height

instance (inp : CalculateDroneDistanceInput) : Decidable (treeHeightsPos inp) :=
  inferInstanceAs (Decidable (∀ t ∈ inp.Trees, _))

/-- The last-achievable coordinate pair reported when the drone got
through the first `k` cells of the traversal order: the sentinel `(0,0)`
when not even the first cell was affordable, otherwise the 1-based
coordinates of cell `k-1`. -/
def reachMark (cells : List (Nat × Nat)) : Nat → Int × Int
  | 0 => (0, 0)
  | k + 1 => (((cells.getD k (0, 0)).2 : Int) + 1, ((cells.getD k (0, 0)).1 : Int) + 1)

/-- How many traversal cells are fully and affordably reached under
budget `m`: the stop index when the budget trips, the whole cell count
otherwise. -/
def stopCount (scaleFactor : Int) (inp : CalculateDroneDistanceInput)
    (m : Int) : Nat :=
  match stopIndex scaleFactor inp (some m) with
  | some k => k
  | none => (droneCells inp).length

/-- The value of the `totalVerticalDistance` accumulator right after the
loop body has processed the very first traversal cell `(0,0)` (it starts
at `0`, so this is the first cell's contribution to the vertical
distance). -/
def firstCellVertical (scaleFactor : Int)
    (inp : CalculateDroneDistanceInput) : Int :=
  match stepCell (buildGrid inp) inp.Estate.Width.toNat
      inp.Estate.Length.toNat scaleFactor none
      ⟨0, 0, 0, ⟨0, 0, 0, 0, 0⟩⟩ (0, 0) with
  | .inl st => st.totalVerticalDistance
  | .inr o => o.TotalVerticalDistance

/-! ## Bounds-checked variant

Go slice indexing panics when out of range.  The functions below repeat
the embedding with every grid access bounds-checked (`none` plays the
panic); under the validation-layer preconditions they are proved to
succeed with the same result, which is the in-bounds claim about the
source. -/

/-- Bounds-checked `g[i][j]`. -/
def getCellChecked (g : List (List Int)) (i j : Nat) : Option Int :=
  (g[i]?).bind fun row => row[j]?

/-- Bounds-checked write of one tree into the grid
(`plantationGridArray[t.Y-1][t.X-1] = t.Height + 1`); Go would also panic
on a negative index, hence the sign tests. -/
def setTreeChecked (g : List (List Int)) (t : Tree) :
    Option (List (List Int)) :=
  if 1 ≤ t.Y ∧ 1 ≤ t.X then
    match g[(t.Y - 1).toNat]? with
    | none => none
    | some row =>
      if (t.X - 1).toNat < row.length then
        some (g.set (t.Y - 1).toNat (row.set (t.X - 1).toNat (t.Height + 1)))
      else none
  else none

/-- Bounds-checked grid construction. -/
def buildGridChecked (inp : CalculateDroneDistanceInput) :
    Option (List (List Int)) :=
  inp.Trees.foldlM setTreeChecked
    (List.replicate inp.Estate.Width.toNat
      (List.replicate inp.Estate.Length.toNat 1))

/-- Bounds-checked loop body (same structure as `stepCell`, every grid
read through `getCellChecked`). -/
def stepCellChecked (g : List (List Int)) (width length : Nat)
    (scaleFactor : Int) (maxDistance : Option Int) (st : LoopSt)
    (c : Nat × Nat) : Option (LoopSt ⊕ CalculateDroneDistanceOutput) :=
  let i := c.1
  let j := c.2
  if i % 2 = 0 then
    (getCellChecked g i j).bind fun currentHeight =>
    (if j = 0 then
        if i = 0 then some st.previousHeight
        else getCellChecked g (i - 1) j
      else getCellChecked g i (j - 1)).bind fun previousHeight =>
    let increment := |currentHeight - previousHeight|
    let totalV := st.totalVerticalDistance + increment
    let totalH :=
      if ¬(i = 0 ∧ j = 0) then st.totalHorizontalDistance + scaleFactor
      else st.totalHorizontalDistance
    if trips maxDistance (totalH + totalV + currentHeight) then
      some (.inr st.out)
    else
      let out := setLast st.out c
      (if i = width - 1 ∧ j = length - 1 then
          (getCellChecked g i j).map (fun h => totalV + h)
        else some totalV).map fun totalV' =>
          .inl ⟨totalH, totalV', previousHeight, out⟩
  else
    (getCellChecked g i j).bind fun currentHeight =>
    (if j = length - 1 then getCellChecked g (i - 1) j
      else getCellChecked g i (j + 1)).bind fun previousHeight =>
    let increment := |currentHeight - previousHeight|
    let totalV := st.totalVerticalDistance + increment
    let totalH := st.totalHorizontalDistance + scaleFactor
    if trips maxDistance (totalH + totalV + currentHeight) then
      some (.inr st.out)
    else
      let out := setLast st.out c
      (if i = width - 1 ∧ j = 0 then
          (getCellChecked g i j).map (fun h => totalV + h)
        else some totalV).map fun totalV' =>
          .inl ⟨totalH, totalV', previousHeight, out⟩

/-- Bounds-checked traversal. -/
def runCellsChecked (g : List (List Int)) (width length : Nat)
    (scaleFactor : Int) (maxDistance : Option Int) :
    List (Nat × Nat) → LoopSt → Option CalculateDroneDistanceOutput
  | [], st =>
    some { st.out with
      TotalDistance := st.totalVerticalDistance + st.totalHorizontalDistance
      TotalHorizontalDistance := st.totalHorizontalDistance
      TotalVerticalDistance := st.totalVerticalDistance }
  | c :: cs, st =>
    (stepCellChecked g width length scaleFactor maxDistance st c).bind
      fun r =>
        match r with
        | .inl st' =>
          runCellsChecked g width length scaleFactor maxDistance cs st'
        | .inr o => some o

/-- Bounds-checked planner: `none` exactly when some grid access of the
source would be out of range. -/
def CalculateDroneDistanceChecked (scaleFactor : Int)
    (input : Option CalculateDroneDistanceInput) (maxDistance : Option Int) :
    Option (Except String CalculateDroneDistanceOutput) :=
  match input with
  | none =>
    some (.error "err CalculateDroneDistance: invalid input -- nothing to calculate drone distance")
  | some inp =>
    (buildGridChecked inp).bind fun g =>
      (runCellsChecked g inp.Estate.Width.toNat inp.Estate.Length.toNat
        scaleFactor maxDistance
        (serpCells inp.Estate.Width.toNat inp.Estate.Length.toNat)
        ⟨0, 0, 0, ⟨0, 0, 0, 0, 0⟩⟩).map .ok

-- Sanity checks against the repository's own unit tests.
example :
    (calculateOutput 10 ⟨[⟨3, 3, 5⟩], ⟨5, 5⟩⟩ none).TotalDistance = 252 := by
  decide

example :
    (calculateOutput 10 ⟨[⟨1, 1, 5⟩], ⟨1, 1⟩⟩ none).TotalDistance = 12 := by
  decide

example :
    (calculateOutput 10 ⟨[⟨2, 2, 5⟩, ⟨3, 3, 3⟩, ⟨4, 4, 4⟩], ⟨5, 5⟩⟩
      none).TotalDistance = 266 := by
  decide

example :
    (calculateOutput 10 ⟨[], ⟨5, 5⟩⟩ none).TotalDistance = 242 := by
  decide

example :
    (calculateOutput 10 ⟨[⟨5, 1, 5⟩], ⟨5, 1⟩⟩ (some 46)) = ⟨0, 0, 0, 4, 1⟩ := by
  decide

example :
    (calculateOutput 10 ⟨[⟨5, 1, 5⟩], ⟨5, 1⟩⟩ (some 32)) = ⟨0, 0, 0, 4, 1⟩ := by
  decide

example :
    (calculateOutput 10 ⟨[⟨5, 1, 5⟩, ⟨5, 2, 10⟩], ⟨5, 2⟩⟩ (some 111)) =
      ⟨0, 0, 0, 2, 2⟩ := by
  decide

example :
    (calculateOutput 10 ⟨[⟨5, 1, 5⟩, ⟨5, 2, 10⟩], ⟨5, 2⟩⟩ (some 112)) =
      ⟨112, 22, 90, 1, 2⟩ := by
  decide

/-! ## The loop body in merged form -/

theorem setLast_setLast (o : CalculateDroneDistanceOutput) (c d : Nat × Nat) :
    setLast (setLast o c) d = setLast o d := rfl

theorem ite_add_split (P : Prop) [Decidable P] (a b : Int) :
    (if P then a + b else a) = a + if P then b else 0 := by
  split <;> simp

/-- The two parity branches of the loop body coincide with a single
per-cell description: charge `hstepOf` and `incOf`, test the budget,
then record the cell and charge `landOf`.  At the very first cell the
`previousHeight` variable must hold `0` (as it does at loop entry). -/
theorem stepCell_eq (g : List (List Int)) (width length : Nat)
    (scaleFactor : Int) (maxDistance : Option Int) (st : LoopSt)
    (c : Nat × Nat) (hc : ¬(c.1 = 0 ∧ c.2 = 0) ∨ st.previousHeight = 0) :
    stepCell g width length scaleFactor maxDistance st c =
      if trips maxDistance
          (st.totalHorizontalDistance + hstepOf scaleFactor c +
            (st.totalVerticalDistance + incOf g length c) + cellAt g c) then
        .inr st.out
      else
        .inl ⟨st.totalHorizontalDistance + hstepOf scaleFactor c,
          st.totalVerticalDistance + incOf g length c +
            landOf g width length c,
          prevHeightUsed g length st.previousHeight c,
          setLast st.out c⟩ := by
  obtain ⟨i, j⟩ := c
  by_cases hpar : i % 2 = 0
  · by_cases hj : j = 0
    · by_cases hi : i = 0
      · have hp : st.previousHeight = 0 := by
          rcases hc with h | h
          · exact absurd ⟨hi, hj⟩ h
          · exact h
        subst hi; subst hj
        simp [stepCell, cellAt, incOf, prevHeightUsed, landOf, hstepOf, hp,
          ite_add_split]
      · subst hj
        simp [stepCell, cellAt, incOf, prevHeightUsed, landOf, hstepOf,
          hpar, hi, ite_add_split]
    · simp [stepCell, cellAt, incOf, prevHeightUsed, landOf, hstepOf,
        hpar, hj, ite_add_split]
  · have hi : ¬i = 0 := fun h => hpar (by simp [h])
    by_cases hj : j = length - 1
    · simp [stepCell, cellAt, incOf, prevHeightUsed, landOf, hstepOf,
        hpar, hi, hj, ite_add_split]
    · simp [stepCell, cellAt, incOf, prevHeightUsed, landOf, hstepOf,
        hpar, hi, hj, ite_add_split]

/-! ## `runCells` equals its closed form -/

/-- Consuming a cell at the head of `completeOut`. -/
theorem completeOut_cons (g : List (List Int)) (width length : Nat)
    (scaleFactor : Int) (c : Nat × Nat) (cs : List (Nat × Nat)) (st : LoopSt)
    (p : Int) :
    completeOut g width length scaleFactor (c :: cs) st =
      completeOut g width length scaleFactor cs
        ⟨st.totalHorizontalDistance + hstepOf scaleFactor c,
         st.totalVerticalDistance + incOf g length c + landOf g width length c,
         p, setLast st.out c⟩ := by
  cases cs with
  | nil => simp [completeOut, vFin, hFin]
  | cons d ds =>
    cases hE : (d :: ds).getLast? with
    | none => simp at hE
    | some e =>
      simp [completeOut, vFin, hFin, List.getLast?_cons_cons, hE,
        setLast_setLast]

/-- Stepping `runSpec` over the head of a cell list whose budget check
does not trip. -/
theorem runSpec_cons (g : List (List Int)) (width length : Nat)
    (scaleFactor : Int) (maxDistance : Option Int) (c : Nat × Nat)
    (cs : List (Nat × Nat)) (st : LoopSt) (p : Int)
    (hfalse : trips maxDistance
      (st.totalHorizontalDistance + hstepOf scaleFactor c +
        (st.totalVerticalDistance + incOf g length c) + cellAt g c) = false) :
    runSpec g width length scaleFactor maxDistance (c :: cs) st =
      runSpec g width length scaleFactor maxDistance cs
        ⟨st.totalHorizontalDistance + hstepOf scaleFactor c,
         st.totalVerticalDistance + incOf g length c + landOf g width length c,
         p, setLast st.out c⟩ := by
  unfold runSpec
  simp only [checkVals, firstIdx, hfalse, Bool.false_eq_true, if_false]
  cases hT : firstIdx (trips maxDistance)
      (checkVals g width length scaleFactor cs
        (st.totalHorizontalDistance + hstepOf scaleFactor c)
        (st.totalVerticalDistance + incOf g length c +
          landOf g width length c)) with
  | none =>
    simp only [Option.map_none', hT]
    exact completeOut_cons g width length scaleFactor c cs st p
  | some k =>
    cases k with
    | zero => simp [hT]
    | succ k' => simp [hT, setLast_setLast]

theorem runCells_eq_spec (g : List (List Int)) (width length : Nat)
    (scaleFactor : Int) (maxDistance : Option Int) :
    ∀ (cs : List (Nat × Nat)), (∀ c ∈ cs, ¬(c.1 = 0 ∧ c.2 = 0)) →
      ∀ st : LoopSt,
        runCells g width length scaleFactor maxDistance cs st =
          runSpec g width length scaleFactor maxDistance cs st
  | [], _, st => by
    simp [runCells, runSpec, checkVals, firstIdx, completeOut, vFin, hFin]
  | c :: cs, hcs, st => by
    have hc : ¬(c.1 = 0 ∧ c.2 = 0) := hcs c (List.mem_cons_self c cs)
    have ih := runCells_eq_spec g width length scaleFactor maxDistance cs
      (fun d hd => hcs d (List.mem_cons_of_mem c hd))
    show (match stepCell g width length scaleFactor maxDistance st c with
      | .inl st' => runCells g width length scaleFactor maxDistance cs st'
      | .inr o => o) = _
    rw [stepCell_eq g width length scaleFactor maxDistance st c (Or.inl hc)]
    by_cases htrip : trips maxDistance
      (st.totalHorizontalDistance + hstepOf scaleFactor c +
        (st.totalVerticalDistance + incOf g length c) + cellAt g c) = true
    · simp only [htrip, if_true]
      simp [runSpec, checkVals, firstIdx, htrip]
    · have hfalse : trips maxDistance
        (st.totalHorizontalDistance + hstepOf scaleFactor c +
          (st.totalVerticalDistance + incOf g length c) + cellAt g c)
          = false := by
        simpa using htrip
      simp only [hfalse, Bool.false_eq_true, if_false]
      rw [ih, runSpec_cons g width length scaleFactor maxDistance c cs st
        (prevHeightUsed g length st.previousHeight c) hfalse]

/-! ## Structure of the serpentine cell list -/

theorem mem_serpCells {w l : Nat} {c : Nat × Nat} :
    c ∈ serpCells w l ↔ c.1 < w ∧ c.2 < l := by
  obtain ⟨i, j⟩ := c
  simp only [serpCells, List.mem_flatMap, List.mem_range]
  constructor
  · rintro ⟨a, ha, hc⟩
    split_ifs at hc <;>
      simp only [List.mem_map, List.mem_reverse, List.mem_range] at hc <;>
      obtain ⟨b, hb, hb2⟩ := hc <;> cases hb2 <;> exact ⟨ha, hb⟩
  · rintro ⟨hi, hj⟩
    refine ⟨i, hi, ?_⟩
    split_ifs <;>
      simp only [List.mem_map, List.mem_reverse, List.mem_range] <;>
      exact ⟨j, hj, rfl⟩

/-- The serpentine list is either empty or starts at `(0,0)` and never
revisits `(0,0)`. -/
theorem serpCells_shape (w l : Nat) :
    serpCells w l = [] ∨
      ∃ rest, serpCells w l = (0, 0) :: rest ∧
        ∀ c ∈ rest, ¬(c.1 = 0 ∧ c.2 = 0) := by
  cases w with
  | zero => exact Or.inl rfl
  | succ w' =>
    cases l with
    | zero =>
      left
      apply List.flatMap_eq_nil_iff.mpr
      intro i _
      split_ifs <;> rfl
    | succ l' =>
      right
      have hr : List.range (w' + 1) = 0 :: (List.range w').map Nat.succ :=
        List.range_succ_eq_map w'
      have hl : List.range (l' + 1) = 0 :: (List.range l').map Nat.succ :=
        List.range_succ_eq_map l'
      refine ⟨((List.range l').map Nat.succ).map (fun j => (0, j)) ++
        ((List.range w').map Nat.succ).flatMap (fun i =>
          if i % 2 = 0 then (List.range (l' + 1)).map (fun j => (i, j))
          else ((List.range (l' + 1)).reverse).map (fun j => (i, j))), ?_, ?_⟩
      · rw [serpCells, hr, List.flatMap_cons]
        simp only [Nat.zero_mod, if_pos rfl]
        rw [hl]
        simp [List.map_cons, List.map_map]
      · intro c hc
        rcases List.mem_append.mp hc with h | h
        · simp only [List.mem_map, List.mem_range] at h
          obtain ⟨b, ⟨a, _, hab⟩, hbc⟩ := h
          subst hbc
          subst hab
          simp
        · simp only [List.mem_flatMap, List.mem_map, List.mem_range] at h
          obtain ⟨i, ⟨a, _, hai⟩, hc⟩ := h
          subst hai
          split_ifs at hc <;>
            simp only [List.mem_map, List.mem_reverse, List.mem_range] at hc <;>
            obtain ⟨b, _, hbc⟩ := hc <;> subst hbc <;> simp

theorem serpCells_length (w l : Nat) : (serpCells w l).length = w * l := by
  induction w with
  | zero => simp [serpCells]
  | succ w ih =>
    rw [serpCells, List.range_succ, List.flatMap_append, List.length_append]
    have h1 : ((List.range w).flatMap fun i =>
        if i % 2 = 0 then (List.range l).map (fun j => (i, j))
        else ((List.range l).reverse).map (fun j => (i, j))).length = w * l := ih
    rw [h1]
    have h2 : ([w].flatMap fun i =>
        if i % 2 = 0 then (List.range l).map (fun j => (i, j))
        else ((List.range l).reverse).map (fun j => (i, j))).length = l := by
      simp only [List.flatMap_cons, List.flatMap_nil, List.append_nil]
      split_ifs <;> simp
    rw [h2]
    ring

theorem getLast?_map {α β : Type} (f : α → β) (l : List α) :
    (l.map f).getLast? = l.getLast?.map f := by
  induction l with
  | nil => rfl
  | cons a l ih =>
    cases l with
    | nil => rfl
    | cons b l' => simpa using ih

/-- The last cell of a nonempty serpentine traversal: last row, last
column when the last row is even-indexed, first column otherwise. -/
theorem serpCells_getLast (w l : Nat) (hw : 1 ≤ w) (hl : 1 ≤ l) :
    (serpCells w l).getLast? =
      some (w - 1, if (w - 1) % 2 = 0 then l - 1 else 0) := by
  obtain ⟨w', rfl⟩ : ∃ w', w = w' + 1 := ⟨w - 1, by omega⟩
  obtain ⟨l', rfl⟩ : ∃ l', l = l' + 1 := ⟨l - 1, by omega⟩
  rw [serpCells, List.range_succ, List.flatMap_append]
  have hrow : ([w'].flatMap fun i =>
      if i % 2 = 0 then (List.range (l' + 1)).map (fun j => (i, j))
      else ((List.range (l' + 1)).reverse).map (fun j => (i, j))).getLast? =
      some (w', if w' % 2 = 0 then l' else 0) := by
    simp only [List.flatMap_cons, List.flatMap_nil, List.append_nil]
    split_ifs with hpar
    · rw [getLast?_map]
      rw [List.range_succ, List.getLast?_concat]
      rfl
    · rw [getLast?_map, List.getLast?_reverse]
      rw [List.range_succ_eq_map]
      rfl
  rw [List.getLast?_append_of_ne_nil, hrow]
  · simp
  · simp only [List.flatMap_cons, List.flatMap_nil, List.append_nil]
    split_ifs <;> simp

/-! ## Full-run characterization -/

/-- `runCells` from the loop's initial state equals the closed form, for
any cell list of the shape the serpentine order has. -/
theorem runCells_eq_spec_full (g : List (List Int)) (width length : Nat)
    (scaleFactor : Int) (maxDistance : Option Int) (cells : List (Nat × Nat))
    (hshape : cells = [] ∨
      ∃ rest, cells = (0, 0) :: rest ∧ ∀ c ∈ rest, ¬(c.1 = 0 ∧ c.2 = 0)) :
    runCells g width length scaleFactor maxDistance cells
        ⟨0, 0, 0, ⟨0, 0, 0, 0, 0⟩⟩ =
      runSpec g width length scaleFactor maxDistance cells
        ⟨0, 0, 0, ⟨0, 0, 0, 0, 0⟩⟩ := by
  rcases hshape with rfl | ⟨rest, rfl, hrest⟩
  · simp [runCells, runSpec, checkVals, firstIdx, completeOut, vFin, hFin]
  · show (match stepCell g width length scaleFactor maxDistance
        ⟨0, 0, 0, ⟨0, 0, 0, 0, 0⟩⟩ (0, 0) with
      | .inl st' => runCells g width length scaleFactor maxDistance rest st'
      | .inr o => o) = _
    rw [stepCell_eq g width length scaleFactor maxDistance
      ⟨0, 0, 0, ⟨0, 0, 0, 0, 0⟩⟩ (0, 0) (Or.inr rfl)]
    by_cases htrip : trips maxDistance
      ((0 : Int) + hstepOf scaleFactor (0, 0) +
        ((0 : Int) + incOf g length (0, 0)) + cellAt g (0, 0)) = true
    · simp only [htrip, if_true]
      simp only [runSpec, checkVals, firstIdx]
      rw [htrip]
      simp
    · have hfalse : trips maxDistance
        ((0 : Int) + hstepOf scaleFactor (0, 0) +
          ((0 : Int) + incOf g length (0, 0)) + cellAt g (0, 0)) = false := by
        simpa using htrip
      simp only [hfalse, Bool.false_eq_true, if_false]
      rw [runCells_eq_spec g width length scaleFactor maxDistance rest hrest]
      rw [runSpec_cons g width length scaleFactor maxDistance (0, 0) rest
        ⟨0, 0, 0, ⟨0, 0, 0, 0, 0⟩⟩
        (prevHeightUsed g length (0 : Int) (0, 0)) hfalse]

/-- The planner output, described in closed form. -/
theorem calculateOutput_eq (scaleFactor : Int)
    (inp : CalculateDroneDistanceInput) (maxDistance : Option Int) :
    calculateOutput scaleFactor inp maxDistance =
      runSpec (buildGrid inp) inp.Estate.Width.toNat inp.Estate.Length.toNat
        scaleFactor maxDistance
        (serpCells inp.Estate.Width.toNat inp.Estate.Length.toNat)
        ⟨0, 0, 0, ⟨0, 0, 0, 0, 0⟩⟩ :=
  runCells_eq_spec_full _ _ _ _ _ _
    (serpCells_shape inp.Estate.Width.toNat inp.Estate.Length.toNat)

/-! ## Claim theorems -/

theorem firstIdx_trips_none : ∀ xs : List Int, firstIdx (trips none) xs = none
  | [] => rfl
  | x :: xs => by simp [firstIdx, trips, firstIdx_trips_none xs]

/-- **C3.** For every input with `Width ≥ 1`, `Length ≥ 1` and in-bounds
trees, when `maxDistance` is not supplied the output satisfies
`TotalDistance = TotalHorizontalDistance + TotalVerticalDistance`. -/
theorem claim_C3 (scaleFactor : Int) (inp : CalculateDroneDistanceInput)
    (hW : 1 ≤ inp.Estate.Width) (hL : 1 ≤ inp.Estate.Length)
    (htrees : treesInBounds inp) :
    (calculateOutput scaleFactor inp none).TotalDistance =
      (calculateOutput scaleFactor inp none).TotalHorizontalDistance +
        (calculateOutput scaleFactor inp none).TotalVerticalDistance := by
  rw [calculateOutput_eq]
  unfold runSpec
  rw [firstIdx_trips_none]
  dsimp only [completeOut]
  exact add_comm _ _

theorem claim_C3_witness :
    (calculateOutput 1 ⟨[], ⟨1, 1⟩⟩ none).TotalDistance =
      (calculateOutput 1 ⟨[], ⟨1, 1⟩⟩ none).TotalHorizontalDistance +
        (calculateOutput 1 ⟨[], ⟨1, 1⟩⟩ none).TotalVerticalDistance :=
  claim_C3 1 ⟨[], ⟨1, 1⟩⟩ (by decide) (by decide) (by decide)

/-- **C8.** `CalculateDroneDistance` returns an error iff its input is
entirely absent (nil), and for every present input satisfying the
dimension and tree-bound preconditions it returns an output and no
error. -/
theorem claim_C8 (scaleFactor : Int) (maxDistance : Option Int) :
    (∀ input : Option CalculateDroneDistanceInput,
      (∃ e, CalculateDroneDistance scaleFactor input maxDistance =
        .error e) ↔ input = none) ∧
    ∀ inp : CalculateDroneDistanceInput,
      1 ≤ inp.Estate.Width → 1 ≤ inp.Estate.Length → treesInBounds inp →
        CalculateDroneDistance scaleFactor (some inp) maxDistance =
          .ok (calculateOutput scaleFactor inp maxDistance) := by
  constructor
  · intro input
    cases input with
    | none => simp [CalculateDroneDistance]
    | some inp => simp [CalculateDroneDistance]
  · intro inp _ _ _
    rfl

theorem claim_C8_witness :
    (∃ e, CalculateDroneDistance 1 none none = .error e) ∧
    CalculateDroneDistance 1 (some ⟨[], ⟨1, 1⟩⟩) none =
      .ok (calculateOutput 1 ⟨[], ⟨1, 1⟩⟩ none) :=
  ⟨((claim_C8 1 none).1 none).mpr rfl,
    (claim_C8 1 none).2 ⟨[], ⟨1, 1⟩⟩ (by decide) (by decide) (by decide)⟩

/-- **C5 (counterexample).** Estate 5×1 with a tree `(5,1,5)`, scale 10,
budget 46: the budget trips at the fifth cell, the last affordably
reached cell is `(4,1)` (the fourth traversal cell), and the travel
accumulated through those four cells is 30 horizontal and 1 vertical —
but the returned output carries `TotalDistance = TotalHorizontalDistance
= TotalVerticalDistance = 0`, not those accumulated figures. -/
theorem claim_C5_counterexample :
    calculateOutput 10 ⟨[⟨5, 1, 5⟩], ⟨5, 1⟩⟩ (some 46) = ⟨0, 0, 0, 4, 1⟩ ∧
    hFin 10 ((serpCells 1 5).take 4) 0 = 30 ∧
    vFin (buildGrid ⟨[⟨5, 1, 5⟩], ⟨5, 1⟩⟩) 1 5 ((serpCells 1 5).take 4) 0
      = 1 ∧
    ¬((0 : Int) = 30 ∧ (0 : Int) = 1) := by
  decide

/-- **C5 (amended).** When a supplied budget trips at some traversal
cell, the returned `TotalDistance`, `TotalHorizontalDistance` and
`TotalVerticalDistance` are all `0` (they are never written before the
early return); only the last-achievable coordinates reflect the travel,
holding the last affordably reached cell (or the sentinel `(0,0)` when
not even the first cell was affordable). -/
theorem claim_C5_amended (scaleFactor : Int)
    (inp : CalculateDroneDistanceInput) (m : Int)
    (hW : 1 ≤ inp.Estate.Width) (hL : 1 ≤ inp.Estate.Length)
    (htrees : treesInBounds inp) (k : Nat)
    (hstop : stopIndex scaleFactor inp (some m) = some k) :
    (calculateOutput scaleFactor inp (some m)).TotalDistance = 0 ∧
    (calculateOutput scaleFactor inp (some m)).TotalHorizontalDistance = 0 ∧
    (calculateOutput scaleFactor inp (some m)).TotalVerticalDistance = 0 ∧
    ((calculateOutput scaleFactor inp (some m)).LastAchievableXCoordinate,
      (calculateOutput scaleFactor inp (some m)).LastAchievableYCoordinate) =
      reachMark (droneCells inp) k := by
  rw [calculateOutput_eq]
  unfold runSpec
  unfold stopIndex at hstop
  dsimp only at hstop ⊢
  rw [hstop]
  cases k with
  | zero => exact ⟨rfl, rfl, rfl, rfl⟩
  | succ k' => exact ⟨rfl, rfl, rfl, rfl⟩

theorem claim_C5_amended_witness :
    (calculateOutput 10 ⟨[⟨5, 1, 5⟩], ⟨5, 1⟩⟩ (some 46)).TotalDistance = 0 ∧
    (calculateOutput 10 ⟨[⟨5, 1, 5⟩], ⟨5, 1⟩⟩
      (some 46)).TotalHorizontalDistance = 0 ∧
    (calculateOutput 10 ⟨[⟨5, 1, 5⟩], ⟨5, 1⟩⟩
      (some 46)).TotalVerticalDistance = 0 ∧
    ((calculateOutput 10 ⟨[⟨5, 1, 5⟩], ⟨5, 1⟩⟩
        (some 46)).LastAchievableXCoordinate,
      (calculateOutput 10 ⟨[⟨5, 1, 5⟩], ⟨5, 1⟩⟩
        (some 46)).LastAchievableYCoordinate) =
      reachMark (droneCells ⟨[⟨5, 1, 5⟩], ⟨5, 1⟩⟩) 4 :=
  claim_C5_amended 10 ⟨[⟨5, 1, 5⟩], ⟨5, 1⟩⟩ 46 (by decide) (by decide)
    (by decide) 4 (by decide)

/-! ### Grid facts -/

theorem getD_replicate {α : Type} (n i : Nat) (a d : α) :
    (List.replicate n a).getD i d = if i < n then a else d := by
  rw [List.getD_eq_getElem?_getD, List.getElem?_replicate]
  split <;> rfl

theorem getD_set_cases {α : Type} (l : List α) (i j : Nat) (v d : α) :
    (l.set i v).getD j d = v ∨ (l.set i v).getD j d = l.getD j d := by
  by_cases hij : i = j
  · subst hij
    by_cases hlen : i < l.length
    · left
      simp [List.getD_eq_getElem?_getD, List.getElem?_set, hlen]
    · right
      simp [List.getD_eq_getElem?_getD, List.getElem?_set, hlen,
        List.getElem?_eq_none (by omega : l.length ≤ i)]
  · right
    simp [List.getD_eq_getElem?_getD, List.getElem?_set, hij]

theorem getCell_set_nonneg (g : List (List Int)) (a b : Nat) (v : Int)
    (hg : ∀ i j, 0 ≤ getCell g i j) (hv : 0 ≤ v) (i j : Nat) :
    0 ≤ getCell (g.set a ((g.getD a []).set b v)) i j := by
  unfold getCell
  rcases getD_set_cases g a i ((g.getD a []).set b v) [] with h | h
  · rw [h]
    rcases getD_set_cases (g.getD a []) b j v 0 with h2 | h2
    · rw [h2]; exact hv
    · rw [h2]; exact hg a j
  · rw [h]; exact hg i j

theorem foldTrees_nonneg :
    ∀ (ts : List Tree) (g : List (List Int)), (∀ t ∈ ts, 1 ≤ t.Height) →
      (∀ i j, 0 ≤ getCell g i j) → ∀ i j,
      0 ≤ getCell (ts.foldl (fun g t =>
        g.set (t.Y - 1).toNat
          ((g.getD (t.Y - 1).toNat []).set (t.X - 1).toNat (t.Height + 1)))
        g) i j
  | [], _, _, hg => hg
  | t :: ts, g, hts, hg => by
    apply foldTrees_nonneg ts _ (fun u hu => hts u (List.mem_cons_of_mem t hu))
    apply getCell_set_nonneg _ _ _ _ hg
    have := hts t (List.mem_cons_self t ts)
    omega

/-- Every cell of the height map is nonnegative when tree heights are
at least 1 (in-range cells are in fact at least 1; out-of-range reads
default to 0). -/
theorem buildGrid_nonneg (inp : CalculateDroneDistanceInput)
    (hh : treeHeightsPos inp) : ∀ i j, 0 ≤ getCell (buildGrid inp) i j := by
  unfold buildGrid
  apply foldTrees_nonneg inp.Trees _ hh
  intro i j
  unfold getCell
  rw [getD_replicate]
  split
  · rw [getD_replicate]
    split <;> norm_num
  · simp

/-- When the budget trips already at the head cell, `runSpec` yields the
output under construction unchanged. -/
theorem runSpec_stop0 (g : List (List Int)) (width length : Nat)
    (scaleFactor : Int) (maxDistance : Option Int) (c : Nat × Nat)
    (cs : List (Nat × Nat)) (st : LoopSt)
    (h : trips maxDistance
      (st.totalHorizontalDistance + hstepOf scaleFactor c +
        (st.totalVerticalDistance + incOf g length c) + cellAt g c) = true) :
    runSpec g width length scaleFactor maxDistance (c :: cs) st = st.out := by
  unfold runSpec
  simp only [checkVals, firstIdx]
  rw [h]
  simp

/-- **C9.** If a supplied budget already trips at the very first
traversal cell — precisely, when `maxDistance < 2 * g` for `g` the
height-map value of cell `(1,1)` — the planner returns, with no error,
an output whose coordinates are the out-of-grid pair `(0,0)` and whose
three distance totals are all `0`. -/
theorem claim_C9 (scaleFactor : Int) (inp : CalculateDroneDistanceInput)
    (m : Int) (hW : 1 ≤ inp.Estate.Width) (hL : 1 ≤ inp.Estate.Length)
    (htrees : treesInBounds inp) (hh : treeHeightsPos inp)
    (htrip : m < 2 * getCell (buildGrid inp) 0 0) :
    CalculateDroneDistance scaleFactor (some inp) (some m) =
      .ok ⟨0, 0, 0, 0, 0⟩ := by
  suffices h : calculateOutput scaleFactor inp (some m) = ⟨0, 0, 0, 0, 0⟩ by
    show Except.ok (calculateOutput scaleFactor inp (some m)) = _
    rw [h]
  rw [calculateOutput_eq]
  rcases serpCells_shape inp.Estate.Width.toNat inp.Estate.Length.toNat with
    hnil | ⟨rest, hcons, hrest⟩
  · exfalso
    have hlen := serpCells_length inp.Estate.Width.toNat
      inp.Estate.Length.toNat
    rw [hnil] at hlen
    have hw : 1 ≤ inp.Estate.Width.toNat := by omega
    have hl : 1 ≤ inp.Estate.Length.toNat := by omega
    simp only [List.length_nil] at hlen
    have := Nat.mul_pos hw hl
    omega
  · have hg0 : (0 : Int) ≤ getCell (buildGrid inp) 0 0 :=
      buildGrid_nonneg inp hh 0 0
    have hval : (0 : Int) + hstepOf scaleFactor (0, 0) +
        ((0 : Int) + incOf (buildGrid inp) inp.Estate.Length.toNat (0, 0)) +
        cellAt (buildGrid inp) (0, 0) =
        2 * getCell (buildGrid inp) 0 0 := by
      simp only [hstepOf, incOf, prevHeightUsed, cellAt]
      norm_num
      rw [abs_of_nonneg hg0]
      ring
    have hhead : trips (some m)
        ((0 : Int) + hstepOf scaleFactor (0, 0) +
          ((0 : Int) + incOf (buildGrid inp) inp.Estate.Length.toNat (0, 0)) +
          cellAt (buildGrid inp) (0, 0)) = true := by
      rw [hval]
      simpa [trips] using htrip
    rw [hcons]
    exact runSpec_stop0 (buildGrid inp) inp.Estate.Width.toNat
      inp.Estate.Length.toNat scaleFactor (some m) (0, 0) rest
      ⟨0, 0, 0, ⟨0, 0, 0, 0, 0⟩⟩ hhead

theorem claim_C9_witness :
    CalculateDroneDistance 1 (some ⟨[], ⟨1, 1⟩⟩) (some 1) =
      .ok ⟨0, 0, 0, 0, 0⟩ :=
  claim_C9 1 ⟨[], ⟨1, 1⟩⟩ 1 (by decide) (by decide) (by decide) (by decide)
    (by decide)

/-! ### Reading off `runSpec` from the initial state -/

theorem runSpec_init_some_succ (g : List (List Int)) (width length : Nat)
    (scaleFactor : Int) (maxDistance : Option Int)
    (cells : List (Nat × Nat)) (k : Nat)
    (h : firstIdx (trips maxDistance)
      (checkVals g width length scaleFactor cells 0 0) = some (k + 1)) :
    runSpec g width length scaleFactor maxDistance cells
        ⟨0, 0, 0, ⟨0, 0, 0, 0, 0⟩⟩ =
      setLast ⟨0, 0, 0, 0, 0⟩ (cells.getD k (0, 0)) := by
  unfold runSpec
  dsimp only
  rw [h]

theorem runSpec_init_none (g : List (List Int)) (width length : Nat)
    (scaleFactor : Int) (maxDistance : Option Int) (cells : List (Nat × Nat))
    (h : firstIdx (trips maxDistance)
      (checkVals g width length scaleFactor cells 0 0) = none) :
    runSpec g width length scaleFactor maxDistance cells
        ⟨0, 0, 0, ⟨0, 0, 0, 0, 0⟩⟩ =
      completeOut g width length scaleFactor cells
        ⟨0, 0, 0, ⟨0, 0, 0, 0, 0⟩⟩ := by
  unfold runSpec
  dsimp only
  rw [h]

/-- **C1.** With a supplied budget: when the budget check first trips at
traversal position `k+1`, the returned last-achievable coordinates are
the 1-based coordinates of the immediately preceding traversal cell
(position `k`); when it never trips, they are the estate's final corner
cell — `x = Length, y = Width` for odd `Width`, `x = 1, y = Width` for
even `Width`. -/
theorem claim_C1 (scaleFactor : Int) (inp : CalculateDroneDistanceInput)
    (m : Int) (hW : 1 ≤ inp.Estate.Width) (hL : 1 ≤ inp.Estate.Length)
    (htrees : treesInBounds inp) :
    (∀ k : Nat, stopIndex scaleFactor inp (some m) = some (k + 1) →
      (calculateOutput scaleFactor inp (some m)).LastAchievableXCoordinate =
        ((droneCells inp).getD k (0, 0)).2 + 1 ∧
      (calculateOutput scaleFactor inp (some m)).LastAchievableYCoordinate =
        ((droneCells inp).getD k (0, 0)).1 + 1) ∧
    (stopIndex scaleFactor inp (some m) = none →
      (calculateOutput scaleFactor inp (some m)).LastAchievableXCoordinate =
        (if inp.Estate.Width % 2 = 1 then inp.Estate.Length else 1) ∧
      (calculateOutput scaleFactor inp (some m)).LastAchievableYCoordinate =
        inp.Estate.Width) := by
  constructor
  · intro k hstop
    unfold stopIndex at hstop
    dsimp only at hstop
    rw [calculateOutput_eq, runSpec_init_some_succ _ _ _ _ _ _ k hstop]
    exact ⟨rfl, rfl⟩
  · intro hstop
    unfold stopIndex at hstop
    dsimp only at hstop
    rw [calculateOutput_eq, runSpec_init_none _ _ _ _ _ _ hstop]
    have hw : 1 ≤ inp.Estate.Width.toNat := by omega
    have hl : 1 ≤ inp.Estate.Length.toNat := by omega
    have hlast := serpCells_getLast inp.Estate.Width.toNat
      inp.Estate.Length.toNat hw hl
    unfold completeOut
    rw [hlast]
    dsimp only [setLast]
    constructor
    · split_ifs with h1 h2 h2 <;> [skip; skip; skip; skip] <;> omega
    · omega

theorem claim_C1_witness :
    (calculateOutput 10 ⟨[⟨5, 1, 5⟩], ⟨5, 1⟩⟩
      (some 46)).LastAchievableXCoordinate = 4 ∧
    (calculateOutput 10 ⟨[⟨5, 1, 5⟩], ⟨5, 1⟩⟩
      (some 46)).LastAchievableYCoordinate = 1 := by
  have h := (claim_C1 10 ⟨[⟨5, 1, 5⟩], ⟨5, 1⟩⟩ 46 (by decide) (by decide)
    (by decide)).1 3 (by decide)
  refine ⟨?_, ?_⟩
  · rw [h.1]; decide
  · rw [h.2]; decide

/-! ### Monotonicity of the stop position in the budget -/

theorem checkVals_length (g : List (List Int)) (width length : Nat)
    (scaleFactor : Int) :
    ∀ (cs : List (Nat × Nat)) (h v : Int),
      (checkVals g width length scaleFactor cs h v).length = cs.length
  | [], _, _ => rfl
  | c :: cs, h, v => by
    simp only [checkVals, List.length_cons]
    rw [checkVals_length g width length scaleFactor cs]

theorem getD_getLast (l : List (Nat × Nat)) (c : Nat × Nat)
    (h : l.getLast? = some c) : l.getD (l.length - 1) (0, 0) = c := by
  rw [List.getD_eq_getElem?_getD, ← List.getLast?_eq_getElem?, h]
  rfl

theorem firstIdx_getD_mono (p q : Int → Bool)
    (h : ∀ x, q x = true → p x = true) :
    ∀ l : List Int, (firstIdx p l).getD l.length ≤ (firstIdx q l).getD l.length
  | [] => Nat.le_refl 0
  | x :: xs => by
    simp only [firstIdx, List.length_cons]
    by_cases hp : p x = true
    · rw [if_pos hp]
      simp
    · have hq : ¬q x = true := fun hqx => hp (h x hqx)
      rw [if_neg hp, if_neg hq]
      have ih := firstIdx_getD_mono p q h xs
      cases hP : firstIdx p xs <;> cases hQ : firstIdx q xs <;>
        simp [hP, hQ, Option.getD] at ih ⊢ <;> omega

/-- The reported last-achievable coordinates always equal the reach mark
of the stop count. -/
theorem lastCoords_eq_reachMark (scaleFactor : Int)
    (inp : CalculateDroneDistanceInput) (m : Int)
    (hW : 1 ≤ inp.Estate.Width) (hL : 1 ≤ inp.Estate.Length) :
    ((calculateOutput scaleFactor inp (some m)).LastAchievableXCoordinate,
      (calculateOutput scaleFactor inp (some m)).LastAchievableYCoordinate) =
      reachMark (droneCells inp) (stopCount scaleFactor inp m) := by
  rw [calculateOutput_eq]
  unfold stopCount
  cases hs : stopIndex scaleFactor inp (some m) with
  | some k =>
    have hs' := hs
    unfold stopIndex at hs'
    dsimp only at hs'
    cases k with
    | zero =>
      unfold runSpec
      dsimp only
      rw [hs']
      rfl
    | succ k' =>
      rw [runSpec_init_some_succ _ _ _ _ _ _ k' hs']
      rfl
  | none =>
    have hs' := hs
    unfold stopIndex at hs'
    dsimp only at hs'
    rw [runSpec_init_none _ _ _ _ _ _ hs']
    unfold droneCells
    have hw : 1 ≤ inp.Estate.Width.toNat := by omega
    have hl : 1 ≤ inp.Estate.Length.toNat := by omega
    have hlast := serpCells_getLast inp.Estate.Width.toNat
      inp.Estate.Length.toNat hw hl
    have hlen : 1 ≤
        (serpCells inp.Estate.Width.toNat inp.Estate.Length.toNat).length := by
      rw [serpCells_length]
      exact Nat.mul_pos hw hl
    unfold completeOut
    rw [hlast]
    have hn : (serpCells inp.Estate.Width.toNat
        inp.Estate.Length.toNat).length =
        ((serpCells inp.Estate.Width.toNat
          inp.Estate.Length.toNat).length - 1) + 1 := by
      omega
    rw [hn]
    simp only [reachMark]
    rw [getD_getLast _ _ hlast]
    rfl

/-- **C7.** For a fixed input and scale factor, raising the supplied
budget never moves the reported last-reached cell earlier in the fixed
serpentine traversal order: the stop counts are ordered, and each
output's last-achievable coordinates are the reach mark of its stop
count. -/
theorem claim_C7 (scaleFactor : Int) (inp : CalculateDroneDistanceInput)
    (m1 m2 : Int) (hW : 1 ≤ inp.Estate.Width) (hL : 1 ≤ inp.Estate.Length)
    (htrees : treesInBounds inp) (hm : m1 ≤ m2) :
    stopCount scaleFactor inp m1 ≤ stopCount scaleFactor inp m2 ∧
    ((calculateOutput scaleFactor inp (some m1)).LastAchievableXCoordinate,
      (calculateOutput scaleFactor inp (some m1)).LastAchievableYCoordinate) =
      reachMark (droneCells inp) (stopCount scaleFactor inp m1) ∧
    ((calculateOutput scaleFactor inp (some m2)).LastAchievableXCoordinate,
      (calculateOutput scaleFactor inp (some m2)).LastAchievableYCoordinate) =
      reachMark (droneCells inp) (stopCount scaleFactor inp m2) := by
  refine ⟨?_, lastCoords_eq_reachMark scaleFactor inp m1 hW hL,
    lastCoords_eq_reachMark scaleFactor inp m2 hW hL⟩
  have hlen : (checkVals (buildGrid inp) inp.Estate.Width.toNat
      inp.Estate.Length.toNat scaleFactor
      (serpCells inp.Estate.Width.toNat inp.Estate.Length.toNat) 0 0).length =
      (droneCells inp).length :=
    checkVals_length _ _ _ _ _ 0 0
  have hb : ∀ m : Int, stopCount scaleFactor inp m =
      (firstIdx (trips (some m))
        (checkVals (buildGrid inp) inp.Estate.Width.toNat
          inp.Estate.Length.toNat scaleFactor
          (serpCells inp.Estate.Width.toNat inp.Estate.Length.toNat)
          0 0)).getD
        (checkVals (buildGrid inp) inp.Estate.Width.toNat
          inp.Estate.Length.toNat scaleFactor
          (serpCells inp.Estate.Width.toNat inp.Estate.Length.toNat)
          0 0).length := by
    intro m
    unfold stopCount stopIndex
    dsimp only
    rw [hlen]
    cases firstIdx (trips (some m))
        (checkVals (buildGrid inp) inp.Estate.Width.toNat
          inp.Estate.Length.toNat scaleFactor
          (serpCells inp.Estate.Width.toNat inp.Estate.Length.toNat)
          0 0) <;> rfl
  rw [hb m1, hb m2]
  apply firstIdx_getD_mono
  intro x
  simp only [trips, decide_eq_true_eq]
  omega

theorem claim_C7_witness :
    stopCount 10 ⟨[⟨5, 1, 5⟩], ⟨5, 1⟩⟩ 32 ≤
      stopCount 10 ⟨[⟨5, 1, 5⟩], ⟨5, 1⟩⟩ 46 ∧
    ((calculateOutput 10 ⟨[⟨5, 1, 5⟩], ⟨5, 1⟩⟩
        (some 32)).LastAchievableXCoordinate,
      (calculateOutput 10 ⟨[⟨5, 1, 5⟩], ⟨5, 1⟩⟩
        (some 32)).LastAchievableYCoordinate) =
      reachMark (droneCells ⟨[⟨5, 1, 5⟩], ⟨5, 1⟩⟩)
        (stopCount 10 ⟨[⟨5, 1, 5⟩], ⟨5, 1⟩⟩ 32) ∧
    ((calculateOutput 10 ⟨[⟨5, 1, 5⟩], ⟨5, 1⟩⟩
        (some 46)).LastAchievableXCoordinate,
      (calculateOutput 10 ⟨[⟨5, 1, 5⟩], ⟨5, 1⟩⟩
        (some 46)).LastAchievableYCoordinate) =
      reachMark (droneCells ⟨[⟨5, 1, 5⟩], ⟨5, 1⟩⟩)
        (stopCount 10 ⟨[⟨5, 1, 5⟩], ⟨5, 1⟩⟩ 46) :=
  claim_C7 10 ⟨[⟨5, 1, 5⟩], ⟨5, 1⟩⟩ 32 46 (by decide) (by decide) (by decide)
    (by decide)

/-! ### The previous-cell relation follows the traversal order -/

/-- Along the serpentine order, the cell whose height the loop body uses
as `previousHeight` is exactly the preceding cell of the traversal (the
same-row neighbour inside a row, the same-column cell of the previous
row at each row boundary). -/
theorem serpCells_chain (g : List (List Int)) (l : Nat) (hl : 1 ≤ l)
    (p : Int) : ∀ w : Nat,
    List.Chain' (fun a b => prevHeightUsed g l p b = cellAt g a)
      (serpCells w l)
  | 0 => by simp [serpCells]
  | w + 1 => by
    have hsplit : serpCells (w + 1) l = serpCells w l ++
        (if w % 2 = 0 then (List.range l).map (fun j => (w, j))
          else ((List.range l).reverse).map (fun j => (w, j))) := by
      rw [serpCells, List.range_succ, List.flatMap_append]
      simp [serpCells]
    rw [hsplit]
    obtain ⟨l', rfl⟩ : ∃ l', l = l' + 1 := ⟨l - 1, by omega⟩
    apply List.Chain'.append (serpCells_chain g (l' + 1) hl p w)
    · split_ifs with hpar
      · rw [List.chain'_map]
        rw [List.chain'_range_succ]
        intro j hj
        simp [prevHeightUsed, cellAt, hpar]
      · rw [List.chain'_map, List.chain'_reverse]
        rw [List.chain'_range_succ]
        intro j hj
        have hj' : ¬j = l' := by omega
        simp [Function.flip_def, prevHeightUsed, cellAt, hpar, hj']
    · intro x hx y hy
      cases w with
      | zero =>
        simp [serpCells] at hx
      | succ w' =>
        rw [serpCells_getLast (w' + 1) (l' + 1) (by omega) hl] at hx
        simp only [Option.mem_def, Option.some.injEq] at hx
        subst hx
        split_ifs at hy with hpar
        · rw [List.head?_map] at hy
          have : (List.range (l' + 1)).head? = some 0 := by
            rw [List.range_succ_eq_map]
            rfl
          rw [this] at hy
          simp only [Option.map_some', Option.mem_def, Option.some.injEq]
            at hy
          subst hy
          have hodd : ¬w' % 2 = 0 := by omega
          simp [prevHeightUsed, cellAt, hpar, hodd]
        · rw [List.head?_map, List.head?_reverse] at hy
          rw [List.range_succ, List.getLast?_concat] at hy
          simp only [Option.map_some', Option.mem_def, Option.some.injEq]
            at hy
          subst hy
          have heven : w' % 2 = 0 := by omega
          simp [prevHeightUsed, cellAt, hpar, heven]

/-- **C2.** The traversal visits the grid cells in serpentine order —
rows `i = 0 .. Width-1`, even-indexed rows with `j` ascending, odd rows
with `j` descending — and the `previousHeight` cell used for the
vertical-cost difference at each step is the immediately preceding cell
of that order. -/
theorem claim_C2 (inp : CalculateDroneDistanceInput)
    (hW : 1 ≤ inp.Estate.Width) (hL : 1 ≤ inp.Estate.Length)
    (htrees : treesInBounds inp) :
    droneCells inp = (List.range inp.Estate.Width.toNat).flatMap (fun i =>
      if i % 2 = 0 then
        (List.range inp.Estate.Length.toNat).map (fun j => (i, j))
      else
        ((List.range inp.Estate.Length.toNat).reverse).map (fun j => (i, j))) ∧
    ∀ p : Int, List.Chain' (fun a b =>
      prevHeightUsed (buildGrid inp) inp.Estate.Length.toNat p b =
        cellAt (buildGrid inp) a) (droneCells inp) := by
  refine ⟨rfl, fun p => ?_⟩
  have hl : 1 ≤ inp.Estate.Length.toNat := by omega
  unfold droneCells
  exact serpCells_chain (buildGrid inp) inp.Estate.Length.toNat hl p
    inp.Estate.Width.toNat

theorem claim_C2_witness :
    List.Chain' (fun a b =>
      prevHeightUsed (buildGrid ⟨[], ⟨2, 2⟩⟩) (2 : Int).toNat 0 b =
        cellAt (buildGrid ⟨[], ⟨2, 2⟩⟩) a) (droneCells ⟨[], ⟨2, 2⟩⟩) :=
  (claim_C2 ⟨[], ⟨2, 2⟩⟩ (by decide) (by decide) (by decide)).2 0

/-! ### The very first cell's vertical contribution -/

/-- **C4 (counterexample).** On a bare 2×1 estate the very first
traversal cell contributes `1` — the starting cell's own height, charged
because the `previousHeight` variable still holds its zero value — not
`0` as the claim states. -/
theorem claim_C4_counterexample :
    firstCellVertical 1 ⟨[], ⟨2, 1⟩⟩ = 1 ∧ (1 : Int) ≠ 0 := by
  decide

/-- **C4 (amended).** The very first traversal cell contributes the
height-map value of the starting cell (1 if bare, tree height + 1
otherwise) — a takeoff cost arising from comparing against the zero
initial `previousHeight` — to the accumulated vertical distance.  (On a
1×1 estate the same loop iteration also adds the landing term, hence the
exclusion.) -/
theorem claim_C4_amended (scaleFactor : Int)
    (inp : CalculateDroneDistanceInput) (hW : 1 ≤ inp.Estate.Width)
    (hL : 1 ≤ inp.Estate.Length) (htrees : treesInBounds inp)
    (hh : treeHeightsPos inp)
    (hne : ¬(inp.Estate.Width = 1 ∧ inp.Estate.Length = 1)) :
    firstCellVertical scaleFactor inp = getCell (buildGrid inp) 0 0 := by
  unfold firstCellVertical
  rw [stepCell_eq _ _ _ _ _ _ _ (Or.inr rfl)]
  have htr : trips none
      ((0 : Int) + hstepOf scaleFactor (0, 0) +
        ((0 : Int) + incOf (buildGrid inp) inp.Estate.Length.toNat (0, 0)) +
        cellAt (buildGrid inp) (0, 0)) = false := rfl
  rw [htr]
  have hland : landOf (buildGrid inp) inp.Estate.Width.toNat
      inp.Estate.Length.toNat (0, 0) = 0 := by
    have hcn : ¬((0 : Nat) = inp.Estate.Width.toNat - 1 ∧
        (0 : Nat) = inp.Estate.Length.toNat - 1) := by omega
    simp [landOf, hcn]
  have hg0 : (0 : Int) ≤ getCell (buildGrid inp) 0 0 :=
    buildGrid_nonneg inp hh 0 0
  have hinc : incOf (buildGrid inp) inp.Estate.Length.toNat (0, 0) =
      getCell (buildGrid inp) 0 0 := by
    unfold incOf prevHeightUsed cellAt
    norm_num
    exact hg0
  simp only [Bool.false_eq_true, if_false]
  show (0 : Int) + incOf (buildGrid inp) inp.Estate.Length.toNat (0, 0) +
      landOf (buildGrid inp) inp.Estate.Width.toNat
        inp.Estate.Length.toNat (0, 0) = _
  rw [hland, hinc]
  ring

theorem claim_C4_amended_witness :
    firstCellVertical 1 ⟨[], ⟨2, 1⟩⟩ = getCell (buildGrid ⟨[], ⟨2, 1⟩⟩) 0 0 :=
  claim_C4_amended 1 ⟨[], ⟨2, 1⟩⟩ (by decide) (by decide) (by decide)
    (by decide) (by decide)

/-! ### Treeless estates -/

theorem serpCells_nodup (w l : Nat) : (serpCells w l).Nodup := by
  induction w with
  | zero => simp [serpCells]
  | succ w ih =>
    have hsplit : serpCells (w + 1) l = serpCells w l ++
        (if w % 2 = 0 then (List.range l).map (fun j => (w, j))
          else ((List.range l).reverse).map (fun j => (w, j))) := by
      rw [serpCells, List.range_succ, List.flatMap_append]
      simp [serpCells]
    rw [hsplit]
    apply List.Nodup.append ih
    · have hinj : Function.Injective (fun j => ((w, j) : Nat × Nat)) := by
        intro a b hab
        simpa using hab
      split_ifs
      · exact (List.nodup_range l).map hinj
      · exact (List.nodup_reverse.mpr (List.nodup_range l)).map hinj
    · intro a ha hb
      have h1 : a.1 < w := (mem_serpCells.mp ha).1
      have h2 : a.1 = w := by
        split_ifs at hb <;> simp only [List.mem_map, List.mem_reverse,
          List.mem_range] at hb <;> obtain ⟨b, _, hb2⟩ := hb <;>
          subst hb2 <;> rfl
      omega

theorem hFin_no00 (scaleFactor : Int) :
    ∀ (cs : List (Nat × Nat)), (∀ c ∈ cs, ¬(c.1 = 0 ∧ c.2 = 0)) →
      ∀ h : Int, hFin scaleFactor cs h = h + scaleFactor * cs.length
  | [], _, h => by simp [hFin]
  | c :: cs, hcs, h => by
    rw [hFin, hFin_no00 scaleFactor cs
      (fun d hd => hcs d (List.mem_cons_of_mem c hd))]
    unfold hstepOf
    rw [if_neg (hcs c (List.mem_cons_self c cs))]
    push_cast [List.length_cons]
    ring

theorem vFin_eq_sum (g : List (List Int)) (w l : Nat) :
    ∀ (cs : List (Nat × Nat)) (v : Int),
      vFin g w l cs v = v + (cs.map (fun c => incOf g l c + landOf g w l c)).sum
  | [], v => by simp [vFin]
  | c :: cs, v => by
    rw [vFin, vFin_eq_sum g w l cs]
    simp only [List.map_cons, List.sum_cons]
    ring

theorem getCell_uniform (w l i j : Nat) (hi : i < w) (hj : j < l) :
    getCell (List.replicate w (List.replicate l 1)) i j = 1 := by
  unfold getCell
  rw [getD_replicate, if_pos hi, getD_replicate, if_pos hj]

theorem incOf_uniform_00 (w l : Nat) (hw : 1 ≤ w) (hl : 1 ≤ l) :
    incOf (List.replicate w (List.replicate l 1)) l (0, 0) = 1 := by
  unfold incOf prevHeightUsed cellAt
  norm_num
  rw [getCell_uniform w l 0 0 hw hl]
  norm_num

theorem incOf_uniform (w l : Nat) (c : Nat × Nat) (hc1 : c.1 < w)
    (hc2 : c.2 < l) (hne : ¬(c.1 = 0 ∧ c.2 = 0)) :
    incOf (List.replicate w (List.replicate l 1)) l c = 0 := by
  obtain ⟨i, j⟩ := c
  dsimp only at hc1 hc2 hne
  unfold incOf prevHeightUsed cellAt
  dsimp only
  by_cases hpar : i % 2 = 0
  · by_cases hj : j = 0
    · have hi : ¬i = 0 := fun h => hne ⟨h, hj⟩
      subst hj
      rw [if_pos hpar, if_pos rfl, if_neg hi]
      rw [getCell_uniform w l i 0 hc1 hc2,
        getCell_uniform w l (i - 1) 0 (by omega) hc2]
      norm_num
    · rw [if_pos hpar, if_neg hj]
      rw [getCell_uniform w l i j hc1 hc2,
        getCell_uniform w l i (j - 1) hc1 (by omega)]
      norm_num
  · by_cases hj : j = l - 1
    · rw [if_neg hpar, if_pos hj]
      rw [getCell_uniform w l i j hc1 hc2,
        getCell_uniform w l (i - 1) j (by omega) hc2]
      norm_num
    · rw [if_neg hpar, if_neg hj]
      rw [getCell_uniform w l i j hc1 hc2,
        getCell_uniform w l i (j + 1) hc1 (by omega)]
      norm_num

theorem landOf_uniform (w l : Nat) (c : Nat × Nat) (hc1 : c.1 < w)
    (hc2 : c.2 < l) :
    landOf (List.replicate w (List.replicate l 1)) w l c =
      if c = (w - 1, if (w - 1) % 2 = 0 then l - 1 else 0) then 1 else 0 := by
  obtain ⟨i, j⟩ := c
  dsimp only at hc1 hc2
  unfold landOf cellAt
  dsimp only
  rw [getCell_uniform w l i j hc1 hc2]
  have hiff : (i = w - 1 ∧ if i % 2 = 0 then j = l - 1 else j = 0) ↔
      ((i, j) : Nat × Nat) = (w - 1, if (w - 1) % 2 = 0 then l - 1 else 0) := by
    simp only [Prod.mk.injEq]
    constructor
    · rintro ⟨h1, h2⟩
      subst h1
      refine ⟨rfl, ?_⟩
      split_ifs at h2 ⊢ <;> omega
    · rintro ⟨h1, h2⟩
      subst h1
      refine ⟨rfl, ?_⟩
      split_ifs at h2 ⊢ <;> omega
  rw [if_congr hiff rfl rfl]

theorem sum_map_indicator_notmem (a : Nat × Nat) :
    ∀ (cs : List (Nat × Nat)) (f : Nat × Nat → Int),
      (∀ c ∈ cs, f c = if c = a then 1 else 0) → a ∉ cs →
      (cs.map f).sum = 0
  | [], _, _, _ => by simp
  | c :: cs, f, h, hna => by
    rw [List.map_cons, List.sum_cons,
      sum_map_indicator_notmem a cs f
        (fun d hd => h d (List.mem_cons_of_mem c hd))
        (fun hmem => hna (List.mem_cons_of_mem c hmem)),
      h c (List.mem_cons_self c cs)]
    have hne : ¬c = a := by
      intro he
      subst he
      exact hna (List.mem_cons_self c cs)
    rw [if_neg hne]
    ring

theorem sum_map_indicator_one (a : Nat × Nat) :
    ∀ (cs : List (Nat × Nat)) (f : Nat × Nat → Int),
      (∀ c ∈ cs, f c = if c = a then 1 else 0) → cs.Nodup → a ∈ cs →
      (cs.map f).sum = 1
  | [], _, _, _, hmem => absurd hmem (List.not_mem_nil a)
  | c :: cs, f, h, hnd, hmem => by
    rw [List.map_cons, List.sum_cons, h c (List.mem_cons_self c cs)]
    obtain ⟨hhead, htail⟩ := List.nodup_cons.mp hnd
    rcases List.mem_cons.mp hmem with rfl | hmem'
    · rw [if_pos rfl,
        sum_map_indicator_notmem a cs f
          (fun d hd => h d (List.mem_cons_of_mem a hd)) hhead]
      ring
    · have hne : ¬c = a := by
        intro he
        subst he
        exact hhead hmem'
      rw [if_neg hne,
        sum_map_indicator_one a cs f
          (fun d hd => h d (List.mem_cons_of_mem c hd)) htail hmem']
      ring

/-- **C6 (counterexample).** On the treeless 1×1 estate the computed
vertical distance is 2 (takeoff 1 + landing 1), not the claimed 1. -/
theorem claim_C6_counterexample :
    (calculateOutput 1 ⟨[], ⟨1, 1⟩⟩ none).TotalVerticalDistance = 2 ∧
    ¬((2 : Int) = 1) := by
  decide

/-- **C6 (amended).** For every treeless estate with `Width ≥ 1`,
`Length ≥ 1`, positive scale factor and no budget:
`TotalVerticalDistance = 2` (takeoff onto the first cell plus the landing
term) and `TotalHorizontalDistance = ScaleFactor * (Width * Length - 1)`. -/
theorem claim_C6_amended (scaleFactor : Int)
    (inp : CalculateDroneDistanceInput) (hW : 1 ≤ inp.Estate.Width)
    (hL : 1 ≤ inp.Estate.Length) (hs : 1 ≤ scaleFactor)
    (hnt : inp.Trees = []) :
    (calculateOutput scaleFactor inp none).TotalVerticalDistance = 2 ∧
    (calculateOutput scaleFactor inp none).TotalHorizontalDistance =
      scaleFactor * (inp.Estate.Width * inp.Estate.Length - 1) := by
  have hw : 1 ≤ inp.Estate.Width.toNat := by omega
  have hl : 1 ≤ inp.Estate.Length.toNat := by omega
  have hg : buildGrid inp = List.replicate inp.Estate.Width.toNat
      (List.replicate inp.Estate.Length.toNat 1) := by
    unfold buildGrid
    rw [hnt]
    rfl
  rcases serpCells_shape inp.Estate.Width.toNat inp.Estate.Length.toNat with
    hnil | ⟨rest, hcons, hrest⟩
  · exfalso
    have hlen := serpCells_length inp.Estate.Width.toNat
      inp.Estate.Length.toNat
    rw [hnil] at hlen
    simp only [List.length_nil] at hlen
    have := Nat.mul_pos hw hl
    omega
  · have hcfin2 : (if (inp.Estate.Width.toNat - 1) % 2 = 0 then
        inp.Estate.Length.toNat - 1 else 0) < inp.Estate.Length.toNat := by
      split_ifs <;> omega
    have hmem : ((inp.Estate.Width.toNat - 1, if
        (inp.Estate.Width.toNat - 1) % 2 = 0 then
        inp.Estate.Length.toNat - 1 else 0) : Nat × Nat) ∈
        serpCells inp.Estate.Width.toNat inp.Estate.Length.toNat :=
      mem_serpCells.mpr ⟨by omega, hcfin2⟩
    have hnd := serpCells_nodup inp.Estate.Width.toNat inp.Estate.Length.toNat
    rw [hcons] at hnd hmem
    obtain ⟨hhead, htail⟩ := List.nodup_cons.mp hnd
    rw [calculateOutput_eq,
      runSpec_init_none _ _ _ _ _ _ (firstIdx_trips_none _)]
    dsimp only [completeOut]
    rw [hg]
    constructor
    · rw [vFin_eq_sum, hcons, List.map_cons, List.sum_cons]
      rw [incOf_uniform_00 _ _ hw hl,
        landOf_uniform _ _ (0, 0) (by omega) (by omega)]
      have hind : ∀ c ∈ rest,
          incOf (List.replicate inp.Estate.Width.toNat
            (List.replicate inp.Estate.Length.toNat 1))
            inp.Estate.Length.toNat c +
          landOf (List.replicate inp.Estate.Width.toNat
            (List.replicate inp.Estate.Length.toNat 1))
            inp.Estate.Width.toNat inp.Estate.Length.toNat c =
          if c = (inp.Estate.Width.toNat - 1, if
            (inp.Estate.Width.toNat - 1) % 2 = 0 then
            inp.Estate.Length.toNat - 1 else 0) then 1 else 0 := by
        intro c hc
        have hcm : c ∈ serpCells inp.Estate.Width.toNat
            inp.Estate.Length.toNat := by
          rw [hcons]
          exact List.mem_cons_of_mem _ hc
        obtain ⟨hb1, hb2⟩ := mem_serpCells.mp hcm
        rw [incOf_uniform _ _ c hb1 hb2 (hrest c hc),
          landOf_uniform _ _ c hb1 hb2]
        ring
      by_cases h00 : ((inp.Estate.Width.toNat - 1, if
          (inp.Estate.Width.toNat - 1) % 2 = 0 then
          inp.Estate.Length.toNat - 1 else 0) : Nat × Nat) = (0, 0)
      · rw [if_pos h00.symm]
        rw [sum_map_indicator_notmem _ rest _ hind (h00 ▸ hhead)]
        ring
      · rw [if_neg (fun h => h00 h.symm)]
        rcases List.mem_cons.mp hmem with hcase | hmem'
        · exact absurd hcase h00
        · rw [sum_map_indicator_one _ rest _ hind htail hmem']
          ring
    · rw [hcons, hFin]
      have h0 : hstepOf scaleFactor (0, 0) = 0 := by
        unfold hstepOf
        rw [if_pos ⟨rfl, rfl⟩]
      rw [h0, hFin_no00 scaleFactor rest hrest]
      have hlenr : (rest.length : Int) =
          inp.Estate.Width * inp.Estate.Length - 1 := by
        have hlen := serpCells_length inp.Estate.Width.toNat
          inp.Estate.Length.toNat
        rw [hcons, List.length_cons] at hlen
        have hcast : ((inp.Estate.Width.toNat * inp.Estate.Length.toNat :
            Nat) : Int) = inp.Estate.Width * inp.Estate.Length := by
          push_cast
          rw [Int.toNat_of_nonneg (by omega), Int.toNat_of_nonneg (by omega)]
        omega
      rw [hlenr]
      ring

theorem claim_C6_amended_witness :
    (calculateOutput 7 ⟨[], ⟨3, 2⟩⟩ none).TotalVerticalDistance = 2 ∧
    (calculateOutput 7 ⟨[], ⟨3, 2⟩⟩ none).TotalHorizontalDistance =
      7 * ((2 : Int) * 3 - 1) :=
  claim_C6_amended 7 ⟨[], ⟨3, 2⟩⟩ (by decide) (by decide) (by decide) rfl

/-! ### All grid accesses are in bounds -/

theorem getElem?_eq_getD {α : Type} (l : List α) (i : Nat) (d : α)
    (h : i < l.length) : l[i]? = some (l.getD i d) := by
  rw [List.getD_eq_getElem?_getD, List.getElem?_eq_getElem h]
  rfl

theorem getD_mem {α : Type} (l : List α) (i : Nat) (d : α)
    (h : i < l.length) : l.getD i d ∈ l := by
  rw [List.getD_eq_getElem?_getD, List.getElem?_eq_getElem h]
  exact List.getElem_mem h

theorem getCellChecked_eq (g : List (List Int)) (w l i j : Nat)
    (hlen : g.length = w) (hrows : ∀ row ∈ g, row.length = l)
    (hi : i < w) (hj : j < l) :
    getCellChecked g i j = some (getCell g i j) := by
  unfold getCellChecked getCell
  have hi' : i < g.length := by omega
  have hj' : j < (g.getD i []).length := by
    rw [hrows (g.getD i []) (getD_mem g i [] hi')]
    exact hj
  rw [getElem?_eq_getD g i [] hi']
  simp only [Option.some_bind]
  rw [getElem?_eq_getD (g.getD i []) j 0 hj']

theorem stepCellChecked_eq (g : List (List Int)) (w l : Nat)
    (scaleFactor : Int) (maxDistance : Option Int) (st : LoopSt)
    (c : Nat × Nat) (hlen : g.length = w)
    (hrows : ∀ row ∈ g, row.length = l) (hc1 : c.1 < w) (hc2 : c.2 < l) :
    stepCellChecked g w l scaleFactor maxDistance st c =
      some (stepCell g w l scaleFactor maxDistance st c) := by
  obtain ⟨i, j⟩ := c
  dsimp only at hc1 hc2
  unfold stepCellChecked stepCell
  dsimp only
  by_cases hpar : i % 2 = 0
  · rw [if_pos hpar, if_pos hpar,
      getCellChecked_eq g w l i j hlen hrows hc1 hc2]
    by_cases hj : j = 0
    · rw [if_pos hj, if_pos hj]
      by_cases hi : i = 0
      · rw [if_pos hi, if_pos hi]
        simp only [Option.some_bind]
        split_ifs <;> simp
      · rw [if_neg hi, if_neg hi,
          getCellChecked_eq g w l (i - 1) j hlen hrows (by omega) hc2]
        simp only [Option.some_bind]
        split_ifs <;> simp
    · rw [if_neg hj, if_neg hj,
        getCellChecked_eq g w l i (j - 1) hlen hrows hc1 (by omega)]
      simp only [Option.some_bind]
      split_ifs <;> simp
  · rw [if_neg hpar, if_neg hpar,
      getCellChecked_eq g w l i j hlen hrows hc1 hc2]
    by_cases hj : j = l - 1
    · rw [if_pos hj, if_pos hj,
        getCellChecked_eq g w l (i - 1) j hlen hrows (by omega) hc2]
      simp only [Option.some_bind]
      split_ifs <;> simp
    · rw [if_neg hj, if_neg hj,
        getCellChecked_eq g w l i (j + 1) hlen hrows hc1 (by omega)]
      simp only [Option.some_bind]
      split_ifs <;> simp

theorem runCellsChecked_eq (g : List (List Int)) (w l : Nat)
    (scaleFactor : Int) (maxDistance : Option Int) (hlen : g.length = w)
    (hrows : ∀ row ∈ g, row.length = l) :
    ∀ (cs : List (Nat × Nat)), (∀ c ∈ cs, c.1 < w ∧ c.2 < l) →
      ∀ st : LoopSt,
      runCellsChecked g w l scaleFactor maxDistance cs st =
        some (runCells g w l scaleFactor maxDistance cs st)
  | [], _, st => rfl
  | c :: cs, hcs, st => by
    have hc := hcs c (List.mem_cons_self c cs)
    show (stepCellChecked g w l scaleFactor maxDistance st c).bind _ = _
    rw [stepCellChecked_eq g w l scaleFactor maxDistance st c hlen hrows
      hc.1 hc.2]
    simp only [Option.some_bind]
    cases hstep : stepCell g w l scaleFactor maxDistance st c with
    | inl st' =>
      simp only [runCells, hstep]
      exact runCellsChecked_eq g w l scaleFactor maxDistance hlen hrows cs
        (fun d hd => hcs d (List.mem_cons_of_mem c hd)) st'
    | inr o =>
      simp only [runCells, hstep]

theorem buildGridAux (w l : Nat) :
    ∀ (ts : List Tree) (g : List (List Int)), g.length = w →
      (∀ row ∈ g, row.length = l) →
      (∀ t ∈ ts, 1 ≤ t.X ∧ (t.X - 1).toNat < l ∧ 1 ≤ t.Y ∧
        (t.Y - 1).toNat < w) →
      ts.foldlM setTreeChecked g = some (ts.foldl (fun g t =>
        g.set (t.Y - 1).toNat
          ((g.getD (t.Y - 1).toNat []).set (t.X - 1).toNat (t.Height + 1)))
        g) ∧
      (ts.foldl (fun g t =>
        g.set (t.Y - 1).toNat
          ((g.getD (t.Y - 1).toNat []).set (t.X - 1).toNat (t.Height + 1)))
        g).length = w ∧
      ∀ row ∈ ts.foldl (fun g t =>
        g.set (t.Y - 1).toNat
          ((g.getD (t.Y - 1).toNat []).set (t.X - 1).toNat (t.Height + 1)))
        g, row.length = l
  | [], g, h1, h2, _ => ⟨rfl, h1, h2⟩
  | t :: ts, g, h1, h2, hts => by
    obtain ⟨hx1, hx2, hy1, hy2⟩ := hts t (List.mem_cons_self t ts)
    have hyi : (t.Y - 1).toNat < g.length := by omega
    have hrlen : (g.getD (t.Y - 1).toNat []).length = l :=
      h2 _ (getD_mem g (t.Y - 1).toNat [] hyi)
    have hstep : setTreeChecked g t =
        some (g.set (t.Y - 1).toNat
          ((g.getD (t.Y - 1).toNat []).set (t.X - 1).toNat
            (t.Height + 1))) := by
      unfold setTreeChecked
      rw [if_pos ⟨hy1, hx1⟩, getElem?_eq_getD g (t.Y - 1).toNat [] hyi]
      dsimp only
      rw [if_pos (by rw [hrlen]; exact hx2)]
    have h1' : (g.set (t.Y - 1).toNat
        ((g.getD (t.Y - 1).toNat []).set (t.X - 1).toNat
          (t.Height + 1))).length = w := by
      rw [List.length_set]
      exact h1
    have h2' : ∀ row ∈ g.set (t.Y - 1).toNat
        ((g.getD (t.Y - 1).toNat []).set (t.X - 1).toNat (t.Height + 1)),
        row.length = l := by
      intro row hr
      rcases List.mem_or_eq_of_mem_set hr with hmem | rfl
      · exact h2 row hmem
      · rw [List.length_set]
        exact hrlen
    rw [List.foldlM_cons, hstep, List.foldl_cons]
    constructor
    · show Option.bind _ _ = _
      simp only [Option.some_bind]
      exact (buildGridAux w l ts _ h1' h2'
        (fun u hu => hts u (List.mem_cons_of_mem t hu))).1
    · exact ⟨(buildGridAux w l ts _ h1' h2'
        (fun u hu => hts u (List.mem_cons_of_mem t hu))).2.1,
        (buildGridAux w l ts _ h1' h2'
          (fun u hu => hts u (List.mem_cons_of_mem t hu))).2.2⟩

theorem buildGridChecked_eq (inp : CalculateDroneDistanceInput)
    (hW : 1 ≤ inp.Estate.Width) (hL : 1 ≤ inp.Estate.Length)
    (htrees : treesInBounds inp) :
    buildGridChecked inp = some (buildGrid inp) ∧
    (buildGrid inp).length = inp.Estate.Width.toNat ∧
    ∀ row ∈ buildGrid inp, row.length = inp.Estate.Length.toNat := by
  unfold buildGridChecked buildGrid
  apply buildGridAux
  · exact List.length_replicate _ _
  · intro row hr
    rw [(List.mem_replicate.mp hr).2]
    exact List.length_replicate _ _
  · intro t ht
    obtain ⟨h1, h2, h3, h4⟩ := htrees t ht
    exact ⟨h1, by omega, h3, by omega⟩

/-- **C10.** Under the preconditions `Width ≥ 1`, `Length ≥ 1` and every
tree within `1 ≤ X ≤ Length`, `1 ≤ Y ≤ Width`, every grid access the
planner performs is in bounds: the fully bounds-checked re-run of the
same algorithm (where any out-of-range read or write yields `none`, as a
Go slice access would panic) succeeds and returns exactly the planner's
result. -/
theorem claim_C10 (scaleFactor : Int) (inp : CalculateDroneDistanceInput)
    (maxDistance : Option Int) (hW : 1 ≤ inp.Estate.Width)
    (hL : 1 ≤ inp.Estate.Length) (htrees : treesInBounds inp) :
    CalculateDroneDistanceChecked scaleFactor (some inp) maxDistance =
      some (CalculateDroneDistance scaleFactor (some inp) maxDistance) := by
  obtain ⟨hbg, hlen, hrows⟩ := buildGridChecked_eq inp hW hL htrees
  show (buildGridChecked inp).bind _ = _
  rw [hbg]
  simp only [Option.some_bind]
  rw [runCellsChecked_eq _ _ _ _ _ hlen hrows _
    (fun c hc => mem_serpCells.mp hc) _]
  simp only [Option.map_some']
  rfl

theorem claim_C10_witness :
    CalculateDroneDistanceChecked 10 (some ⟨[⟨3, 3, 5⟩], ⟨5, 5⟩⟩) none =
      some (CalculateDroneDistance 10 (some ⟨[⟨3, 3, 5⟩], ⟨5, 5⟩⟩) none) :=
  claim_C10 10 ⟨[⟨3, 3, 5⟩], ⟨5, 5⟩⟩ none (by decide) (by decide) (by decide)

end DronePatrol
